import Mathlib

/-!
Verification of the Receipt Extraction & Reconciliation Engine
(`src/IMAPAppleReceiptsToOFX.py`) against its natural-language
specification.

The Python program is shallowly embedded below.  Conventions:

* `Money` (py-moneyed, a fixed-currency exact `Decimal`) is embedded as `ℚ`.
  `Decimal` context arithmetic carries 28 significant digits; we model it as
  exact rational arithmetic (differences would appear only beyond the 28th
  significant digit).  `Money.round(2)` quantizes with the default context
  rounding `ROUND_HALF_EVEN`; `round2` below implements exactly that.
* Python exceptions that escape a handler are embedded as `Except Unit`
  errors; `process_email`'s outermost `except Exception` maps every such
  error to `none` (the document is skipped and the run continues).
* BeautifulSoup tree queries are embedded as data: each field of the
  document structures below records what the corresponding `find`/
  `find_parent`/`find_next` query chain would return, at exactly the
  granularity the code inspects it.  The extraction *logic* that runs on
  the query results (defaulting, canonicalization, sign handling, parsing,
  dict insertion) is embedded faithfully.
-/

/-- Embeds Python `str.split()` (split on whitespace runs, drop empties):
accumulator-based scanner over the character list. -/
def splitWSAux : List Char → List Char → List String
  | [], cur => if cur = [] then [] else [String.mk cur.reverse]
  | c :: rest, cur =>
    if c.isWhitespace then
      (if cur = [] then splitWSAux rest [] else String.mk cur.reverse :: splitWSAux rest [])
    else splitWSAux rest (c :: cur)

/-- Python `str.split()` with no arguments. -/
def splitWS (s : String) : List String := splitWSAux s.toList []

/-- Python `str.strip()`. -/
def trimStr (s : String) : String :=
  String.mk (((s.toList.dropWhile Char.isWhitespace).reverse.dropWhile Char.isWhitespace).reverse)

/-- Python `s.replace('$', '')`: every `'$'` character is removed. -/
def stripDollar (s : String) : String := String.mk (s.toList.filter (fun c => c ≠ '$'))

/-- Python `s.startswith(p)`. -/
def strStartsWith (s p : String) : Bool := p.toList.isPrefixOf s.toList

/-- Digits of a decimal string, most significant first, as a natural. -/
def natFromDigits (cs : List Char) : ℕ := cs.foldl (fun n c => n * 10 + (c.toNat - 48)) 0

/-- Embeds `Decimal(s)` (as used through `Money(s, USD)`) for the plain
decimal grammar occurring in receipts: optional sign, integer digits,
optional fraction digits, at least one digit in total.  `none` models the
constructor raising (py-moneyed converts `decimal.InvalidOperation` on a
malformed amount string into `ValueError`).  Exotic `Decimal` forms
(exponents, `NaN`, `Infinity`) do not occur in receipt markup and are out
of scope. -/
def parseMoney (s : String) : Option ℚ :=
  let cs := s.toList
  let sign : ℚ := if cs.head? = some '-' then -1 else 1
  let cs := if cs.head? = some '-' ∨ cs.head? = some '+' then cs.tail else cs
  let ip := cs.takeWhile (fun c => c ≠ '.')
  let rest := cs.dropWhile (fun c => c ≠ '.')
  let fp := rest.tail
  if ip.all Char.isDigit ∧ fp.all Char.isDigit ∧ (ip ≠ [] ∨ fp ≠ []) then
    some (sign * ((natFromDigits ip : ℚ) + (natFromDigits fp : ℚ) / (10 : ℚ) ^ fp.length))
  else none

/-- Floor of a rational (numerator floor-divided by denominator). -/
def qfloor (q : ℚ) : ℤ := q.num.fdiv q.den

/-- Round half to even, the default `decimal` context rounding used by
`Money.round` via `Decimal.quantize`. -/
def rhe (q : ℚ) : ℤ :=
  let f := qfloor q
  let frac := q - (f : ℚ)
  if frac < 1 / 2 then f
  else if 1 / 2 < frac then f + 1
  else if f % 2 = 0 then f else f + 1

/-- Embeds `Money.round(2)`: quantize to two fractional digits, half to even. -/
def round2 (q : ℚ) : ℚ := ((rhe (q * 100) : ℤ) : ℚ) / 100

/-- Python `str(n)` for the 1-based item counter (`f"{order_id}-{counter}"`).
Fuel-structured so the kernel can evaluate it. -/
def natToStrAux : ℕ → ℕ → List Char
  | 0, _ => []
  | fuel + 1, n => if n = 0 then [] else natToStrAux fuel (n / 10) ++ [Char.ofNat (48 + n % 10)]

/-- Decimal rendering of a natural number, as Python `str`. -/
def natToStr (n : ℕ) : String := if n = 0 then "0" else String.mk (natToStrAux (n + 1) n)

/-- One `item_details` dict.  In the legacy layout the `duration`/`renewal`
keys are set only when the span text is non-empty, and `item.get` treats an
empty string and an absent key alike, so absence is modelled as `""`.  The
`price` key is absent (`none`) when the legacy item row has no enclosing
`tr` (the `if(row)` guard fails); reading it then raises `KeyError`. -/
structure Item where
  title : String
  duration : String
  renewal : String
  price : Option ℚ
  deriving DecidableEq, Repr

/-- Embeds `receipt_items[title] = item_details` on an `OrderedDict`:
an existing key keeps its original position and gets the new value; a new
key is appended at the end. -/
def upsert : List (String × Item) → String → Item → List (String × Item)
  | [], k, v => [(k, v)]
  | (k', v') :: rest, k, v =>
    if k' = k then (k, v) :: rest else (k', v') :: upsert rest k v

/-- `OrderedDict` key lookup (first — and only — occurrence of the key). -/
def lookupItem : List (String × Item) → String → Option Item
  | [], _ => none
  | (k, v) :: rest, t => if k = t then some v else lookupItem rest t

/-- The mutable accumulators of `process_email` (lines 98-103), initialised
before either layout pass runs. -/
structure RState where
  appleId : String
  orderId : String
  items : List (String × Item)
  subtotal : ℚ
  tax : ℚ
  total : ℚ
  deriving DecidableEq, Repr

deriving instance DecidableEq for Except

/-- Initial accumulator values (lines 98-103). -/
def initState : RState := ⟨"", "", [], 0, 0, 0⟩

/-!  ### Legacy ("pre March 2024") layout, lines 108-183  -/

/-- What the `extract_id` query chain (lines 114-129) finds for one
identifier label.

* `noLabel` — no text node matches the regex: the `if label_node` guard
  fails and the function returns `''`.
* `noTd` — the label node has no `td` ancestor: `find_parent` returns
  `None`, `None.find_all` raises `AttributeError`, the handler catches it
  and the function returns `''`.
* `lastText s` — `s` is `node.find_all(string=True)[-1].get_text(strip=True)`,
  the stripped text of the last text node of the enclosing cell (non-empty
  existence of that node is guaranteed: the label itself is a text node of
  the cell). -/
inductive IdSrc
  | noLabel
  | noTd
  | lastText (s : String)
  deriving DecidableEq, Repr

/-- Embeds `extract_id` (lines 114-129).  `potential_id` is the last
whitespace-delimited token of the row text; `.split()[-1]` on an empty or
all-whitespace string raises `IndexError`, which the
`except (ValueError, AttributeError)` handler does **not** catch, so it
escapes (`.error`) and kills the whole document.  The embedded-whitespace
check is kept although `str.split()` tokens can never contain whitespace. -/
def extract_id (src : IdSrc) : Except Unit String :=
  match src with
  | .noLabel => .ok ""
  | .noTd => .ok ""
  | .lastText s =>
    match (splitWS s).getLast? with
    | none => .error ()
    | some tok =>
      if tok ≠ "" then
        (if tok.toList.any Char.isWhitespace then .ok "" else .ok (trimStr tok))
      else .ok ""

/-- What the `extract_amount_from_div` query chain (lines 171-179) finds
for one summary label.

* `noCell` — no `td` has the label as its exact trimmed text: `Money(0)`.
* `noRow` — the cell has no `tr` ancestor: `AttributeError`, caught by the
  handler: `Money(0)`.
* `cellText s` — `s` is the stripped text of the row's last `td`. -/
inductive AmtSrc
  | noCell
  | noRow
  | cellText (s : String)
  deriving DecidableEq, Repr

/-- Embeds `extract_amount_from_div` (lines 171-179).  A malformed amount
string makes `Money` raise `ValueError`, which the handler catches, so
every failure path yields `Money(0, USD)`. -/
def extract_amount_from_div (src : AmtSrc) : ℚ :=
  match src with
  | .noCell => 0
  | .noRow => 0
  | .cellText s =>
    match parseMoney (stripDollar s) with
    | none => 0
    | some q => q

/-- One legacy item row: an `a.item-links` anchor together with its
enclosing `td` (anchors without a `td` ancestor contribute nothing and are
not modelled).  `title`/`renewal`/`duration` are the span texts, recorded
(`some`) only when the span exists and its stripped text is non-empty
(lines 143-148).  `rowPrice` is the stripped text of the last `td` of the
enclosing `tr`, or `none` when the cell has no `tr` ancestor (the
`if(row)` guard, line 158). -/
structure LegacyRow where
  title : Option String
  renewal : Option String
  duration : Option String
  rowPrice : Option String
  deriving DecidableEq, Repr

/-- Shared by both layouts (lines 162-164 and 243-245): a balance top-up
("Money added to …") is printed unsigned by the vendor, so its price is
negated right after parsing. -/
def apply_money_added_sign (title : String) (p : ℚ) : ℚ :=
  if strStartsWith title "Money added to" then -p else p

/-- Embeds lines 139-168 for one legacy row, yielding the `(key, value)`
pair stored into `receipt_items`, `none` when the row stores nothing, or an
error when the document dies:

* a missing `title` key raises `KeyError` (uncaught — document fatal);
* the `"Premier (Automatic Renewal)"` title is canonicalized, and the
  canonicalized title decides both the dict key and the top-up negation;
* an unparseable price makes `Money` raise (uncaught here — document
  fatal);
* a row with no `tr` ancestor stores the item without a `price` key. -/
def legacyRowItem (row : LegacyRow) : Except Unit (Option (String × Item)) :=
  match row.title with
  | none => .error ()
  | some t =>
    if t = "" then .ok none
    else
      let key := if t = "Premier (Automatic Renewal)" then "Apple One Premier" else t
      match row.rowPrice with
      | none =>
        .ok (some (key, ⟨t, row.duration.getD "", row.renewal.getD "", none⟩))
      | some s =>
        match parseMoney (stripDollar s) with
        | none => .error ()
        | some p =>
          .ok (some (key, ⟨t, row.duration.getD "", row.renewal.getD "",
                           some (apply_money_added_sign key p)⟩))

/-- Folds row results into the `receipt_items` ordered dict, in document
order, propagating a document-fatal error. -/
def foldRows {α : Type} (f : α → Except Unit (Option (String × Item))) :
    List α → List (String × Item) → Except Unit (List (String × Item))
  | [], acc => .ok acc
  | r :: rest, acc =>
    match f r with
    | .error e => .error e
    | .ok none => foldRows f rest acc
    | .ok (some (k, v)) => foldRows f rest (upsert acc k v)

/-- The legacy (`aapl-desktop-div`) section of a document: the query
results the pre-March-2024 branch (lines 108-183) reads. -/
structure LegacySection where
  appleIdSrc : IdSrc
  orderIdSrc : IdSrc
  itemRows : List LegacyRow
  subtotalSrc : AmtSrc
  taxSrc : AmtSrc
  totalSrc : AmtSrc
  deriving DecidableEq, Repr

/-- Embeds the whole legacy branch (lines 110-183): identifiers, then
items, then the three summary amounts, each assigned unconditionally into
the accumulators.  Only `items` carries state in (the accumulators start
fresh, but the fold starts from the incoming dict as in the source). -/
def legacy_pass (L : LegacySection) (st : RState) : Except Unit RState :=
  match extract_id L.appleIdSrc with
  | .error e => .error e
  | .ok aid =>
    match extract_id L.orderIdSrc with
    | .error e => .error e
    | .ok oid =>
      match foldRows legacyRowItem L.itemRows st.items with
      | .error e => .error e
      | .ok its =>
        .ok ⟨aid, oid, its,
             extract_amount_from_div L.subtotalSrc,
             extract_amount_from_div L.taxSrc,
             extract_amount_from_div L.totalSrc⟩

/-!  ### Current ("post March 2024") layout, lines 185-274  -/

/-- What the `extract_info` query chain (lines 191-210) finds for one
label.

* `noLabel` — no text node starts with the label: `p_tag` is then an
  **unbound local** and `if p_tag:` raises `NameError`, which the
  `except (ValueError, AttributeError)` handler does not catch — the
  document dies.
* `noParagraph` — the label text has no `p` ancestor (`p_tag` is `None`):
  logged, returns `''`.
* `noNextParagraph` — no following `p` element: logged, returns `''`.
* `val s` — the stripped text of the following `p` (an empty `s` is logged
  and `''` returned, which coincides with returning `s`). -/
inductive InfoSrc
  | noLabel
  | noParagraph
  | noNextParagraph
  | val (s : String)
  deriving DecidableEq, Repr

/-- Embeds `extract_info` (lines 191-210). -/
def extract_info (src : InfoSrc) : Except Unit String :=
  match src with
  | .noLabel => .error ()
  | .noParagraph => .ok ""
  | .noNextParagraph => .ok ""
  | .val s => .ok s

/-- One `tr` of the current-layout items table: the number of its `td`
cells, the paragraph texts of its second cell (meaningful only when it
qualifies), and the stripped text of its last cell. -/
structure CurrentRow where
  numCells : ℕ
  paras : List String
  priceText : String
  deriving DecidableEq, Repr

/-- Embeds lines 222-254 for one current-layout row: a row qualifies only
with at least three cells and at least three paragraphs in the description
cell (otherwise it is skipped with a log); `"Premier"` is canonicalized,
an `"Apple TV"` title is replaced by the duration text, an unparseable
price kills the document, and top-up prices are negated. -/
def currentRowItem (row : CurrentRow) : Except Unit (Option (String × Item)) :=
  if 3 ≤ row.numCells then
    match row.paras with
    | t :: d :: rn :: _ =>
      let t1 := if t = "Premier" then "Apple One Premier" else t
      let t2 := if t1 = "Apple TV" then d else t1
      match parseMoney (stripDollar row.priceText) with
      | none => .error ()
      | some p =>
        .ok (some (t2, ⟨t2, d, rn, some (apply_money_added_sign t2 p)⟩))
    | _ => .ok none
  else .ok none

/-- The `payment-information` div (lines 259-269): `extract_info` sources
for Subtotal and Tax, and the stripped text of the div following the `hr`
separator (`none` when the `hr` or the following div is missing, in which
case `receipt_total` is left unchanged). -/
structure PaymentInfo where
  subtotalSrc : InfoSrc
  taxSrc : InfoSrc
  totalDivText : Option String
  deriving DecidableEq, Repr

/-- The current (`email_container`) section of a document: the query
results the post-March-2024 branch (lines 185-274) reads.  `itemsTable`
is `none` when `email_container_div.find('table')` finds nothing. -/
structure CurrentSection where
  orderIdSrc : InfoSrc
  appleIdSrc : InfoSrc
  itemsTable : Option (List CurrentRow)
  payment : Option PaymentInfo
  deriving DecidableEq, Repr

/-- Embeds the whole current-layout branch (lines 186-271): Order ID then
Apple Account (both assigned unconditionally, overwriting whatever a
legacy pass produced), items merged into the same ordered dict, then — only
when the payment div is present — Subtotal and Tax parsed from
`extract_info` text (an empty or malformed string makes `Money` raise,
uncaught: document fatal) and the total from the post-`hr` div. -/
def current_pass (C : CurrentSection) (st : RState) : Except Unit RState :=
  match extract_info C.orderIdSrc with
  | .error e => .error e
  | .ok oid =>
    match extract_info C.appleIdSrc with
    | .error e => .error e
    | .ok aid =>
      match (match C.itemsTable with
             | none => Except.ok st.items
             | some rows => foldRows currentRowItem rows st.items) with
      | .error e => .error e
      | .ok its =>
        match C.payment with
        | none => .ok ⟨aid, oid, its, st.subtotal, st.tax, st.total⟩
        | some pay =>
          match extract_info pay.subtotalSrc with
          | .error e => .error e
          | .ok subS =>
            match parseMoney (stripDollar subS) with
            | none => .error ()
            | some sub =>
              match extract_info pay.taxSrc with
              | .error e => .error e
              | .ok taxS =>
                match parseMoney (stripDollar taxS) with
                | none => .error ()
                | some tax =>
                  match pay.totalDivText with
                  | none => .ok ⟨aid, oid, its, sub, tax, st.total⟩
                  | some totS =>
                    match parseMoney (stripDollar totS) with
                    | none => .error ()
                    | some tot => .ok ⟨aid, oid, its, sub, tax, tot⟩

/-- A document's HTML body at the granularity the code dispatches on:
`legacy` is `some` exactly when `soup.find('div', class_='aapl-desktop-div')`
finds the legacy container marker, `current` is `some` exactly when
`soup.find('div', id='email_container')` finds the current container
marker.  The two checks are sequential, not exclusive (lines 110 and 186). -/
structure Doc where
  legacy : Option LegacySection
  current : Option CurrentSection
  deriving DecidableEq, Repr

/-- Embeds lines 97-274: the fresh accumulators, the legacy pass when its
marker is present, then the current pass when its marker is present, over
the same accumulators. -/
def extract_receipt_fields (d : Doc) : Except Unit RState :=
  match (match d.legacy with
         | none => Except.ok initState
         | some L => legacy_pass L initState) with
  | .error e => .error e
  | .ok st1 =>
    match d.current with
    | none => .ok st1
    | some C => current_pass C st1

/-!  ### Validation (lines 279-319) and full per-document processing  -/

/-- An accepted receipt: the dict returned at lines 307-316. -/
structure Receipt where
  orderId : String
  appleId : String
  items : List (String × Item)
  subtotal : ℚ
  tax : ℚ
  total : ℚ
  date : ℤ
  recipient : String
  deriving DecidableEq, Repr

/-- Embeds `sum(item['price'] for item in receipt_items.values())`
(line 289): errors (`KeyError`, document fatal) when any item lacks its
`price` key. -/
def sumPrices : List (String × Item) → Except Unit ℚ
  | [] => .ok 0
  | (_, it) :: rest =>
    match it.price with
    | none => .error ()
    | some p =>
      match sumPrices rest with
      | .error e => .error e
      | .ok s => .ok (p + s)

/-- Every stored item carries a `price` key. -/
def allPriced (l : List (String × Item)) : Bool := l.all (fun p => p.2.price.isSome)

/-- Embeds lines 288-319: compute `calculated_subtotal`; substitute it for
a zero subtotal when the tax is also zero; negate the extracted total when
`calculated_subtotal` is negative; then accept the receipt only when the
order id, the Apple id, the items dict, the (corrected) total and the
recipient address are all truthy.  (`receipt_date` is a `datetime` here and
is always truthy; the sum mismatches at lines 299-304 are logged only.) -/
def validate_receipt (st : RState) (date : ℤ) (recipient : String) :
    Except Unit (Option Receipt) :=
  match sumPrices st.items with
  | .error e => .error e
  | .ok calcSub =>
    let sub := if st.tax = 0 ∧ st.subtotal = 0 then calcSub else st.subtotal
    let tot := if calcSub < 0 then -st.total else st.total
    if st.orderId ≠ "" ∧ st.appleId ≠ "" ∧ st.items ≠ [] ∧ tot ≠ 0 ∧ recipient ≠ "" then
      .ok (some ⟨st.orderId, st.appleId, st.items, sub, st.tax, tot, date, recipient⟩)
    else .ok none

/-- Embeds `process_email` (lines 55-323) for one document.  `dateHdr` is
the parsed `Date` header (`none` folds together a missing header and an
unparseable one — both return `None` before extraction); `toAddr` is the
address parsed from the `To` header (`none` = header missing); `html` is
the HTML body part (`none` makes the later `if receipt_items:` raise
`NameError`, caught by the outermost handler).  Every escaping exception is
caught at the document boundary and becomes `none`. -/
def process_email (dateHdr : Option ℤ) (toAddr : Option String) (html : Option Doc) :
    Option Receipt :=
  match dateHdr with
  | none => none
  | some date =>
    match toAddr with
    | none => none
    | some recipient =>
      match html with
      | none => none
      | some doc =>
        match extract_receipt_fields doc with
        | .error _ => none
        | .ok st =>
          match validate_receipt st date recipient with
          | .error _ => none
          | .ok r => r

/-!  ### OFX generation (`generate_ofx_output`, lines 325-455)  -/

/-- One `STMTTRN` record (lines 367-376), with the fields the transaction
template is instantiated with.  The `amount` field holds the `TRNAMT`
value `-amount` (ledger sign convention); `date` stands for the
`strftime("%Y%m%d")`-formatted posting date. -/
structure Txn where
  type : String
  date : ℤ
  amount : ℚ
  fitid : String
  name : String
  memo : String
  deriving DecidableEq, Repr

/-- Embeds the allocation loop (lines 397-402): for each item in dict
order, `amount = price + round(price * tax_percentage, 2)`.  A missing
`price` key raises `KeyError` (uncaught in `generate_ofx_output` — the
whole run dies). -/
def allocItems (pct : ℚ) : List (String × Item) → Except Unit (List (String × Item × ℚ))
  | [] => .ok []
  | (t, it) :: rest =>
    match it.price with
    | none => .error ()
    | some p =>
      match allocItems pct rest with
      | .error e => .error e
      | .ok l => .ok ((t, it, p + round2 (p * pct)) :: l)

/-- `sum(amount for _, _, amount in transaction_items)` (lines 405, 412). -/
def sumAmounts : List (String × Item × ℚ) → ℚ
  | [] => 0
  | x :: rest => x.2.2 + sumAmounts rest

/-- Embeds lines 406-409: the whole rounding difference is added to the
last list entry.  The source guards with `rounding_difference != 0`, but
that compares a `Money` to the int `0`, which py-moneyed always reports as
unequal — and adding a zero residual is the identity anyway — so the
addition is embedded unconditionally.  (`transaction_items[-1]` cannot
fault here: the list is non-empty whenever this runs.) -/
def adjustLast (l : List (String × Item × ℚ)) (d : ℚ) : List (String × Item × ℚ) :=
  match l.getLast? with
  | none => l
  | some (t, it, a) => l.dropLast ++ [(t, it, a + d)]

/-- Embeds the memo computation (lines 417-425).  It runs **once per
receipt**, after the allocation loop, so `item` is the loop variable left
over from that loop: the *last* item of the receipt's dict. -/
def mkMemo (accountId appleId lastDur : String) : String :=
  let m := if appleId ≠ accountId then "Apple ID: " ++ appleId else ""
  if lastDur ≠ "" then (if m ≠ "" then m ++ "; " else m) ++ "Subscription: " ++ lastDur
  else m

/-- The `duration` the memo code reads: that of the last item (empty when
the key is absent or empty — `item.get('duration')` falsy). -/
def lastDuration (items : List (String × Item)) : String :=
  match items.getLast? with
  | none => ""
  | some (_, it) => it.duration

/-- Embeds the transaction loop (lines 427-438): 1-based counter, type
`CREDIT` exactly when the amount is negative, `TRNAMT` the negated amount,
`FITID` the order id and counter, and the one receipt-level memo. -/
def mkTxns (orderId : String) (date : ℤ) (memo : String) : ℕ → List (String × Item × ℚ) → List Txn
  | _, [] => []
  | n, (t, _, a) :: rest =>
    ⟨if a < 0 then "CREDIT" else "DEBIT", date, -a,
     orderId ++ "-" ++ natToStr n, t, memo⟩ :: mkTxns orderId date memo (n + 1) rest

/-- Embeds the per-receipt body of `generate_ofx_output` (lines 382-442):

* a receipt without items is skipped with a warning (`.ok none`);
* `tax_percentage = receipt_tax / receipt_total` — there is **no guard**:
  a zero total makes the `Decimal` division raise (`.error`, killing the
  whole run, since `generate_ofx_output` has no handler);
* per-item allocation, the rounding-residual correction on the last item,
  and the final reconciliation check: on mismatch the receipt is dropped
  (`continue`, `.ok none`); otherwise its transactions are emitted. -/
def generate_ofx_receipt (accountId : String) (r : Receipt) : Except Unit (Option (List Txn)) :=
  if r.items = [] then .ok none
  else
    if r.total = 0 then .error ()
    else
      match allocItems (r.tax / r.total) r.items with
      | .error e => .error e
      | .ok titems =>
        let adjusted := adjustLast titems (round2 (r.total - sumAmounts titems))
        if sumAmounts adjusted ≠ r.total then .ok none
        else
          .ok (some (mkTxns r.orderId r.date
                (mkMemo accountId r.appleId (lastDuration r.items)) 1 adjusted))

/-- The receipt loop of `generate_ofx_output` (lines 378-442), collecting
every emitted transaction in order; an escaping exception aborts the run. -/
def generate_ofx_loop (accountId : String) : List Receipt → Except Unit (List Txn)
  | [] => .ok []
  | r :: rest =>
    match generate_ofx_receipt accountId r with
    | .error e => .error e
    | .ok none => generate_ofx_loop accountId rest
    | .ok (some txns) =>
      match generate_ofx_loop accountId rest with
      | .error e => .error e
      | .ok ts => .ok (txns ++ ts)

/-- Embeds `generate_ofx_output` (lines 325-455) up to the transaction
list (the OFX/XML string templating and the file write are pure
serialization of this list and are not modelled).  With an empty batch the
statement-date computation `max(receipt['date'] ...)` (line 444) raises
`ValueError` on an empty sequence. -/
def generate_ofx_output (receipts : List Receipt) (accountId : String) :
    Except Unit (List Txn) :=
  match generate_ofx_loop accountId receipts with
  | .error e => .error e
  | .ok ts => if receipts = [] then .error () else .ok ts

/-!  ### Helper lemmas  -/

/-- Successful allocation for fully priced items: the allocation loop
preserves the titles (and hence the count) of the items it walks. -/
theorem allocItems_ok (pct : ℚ) :
    ∀ l : List (String × Item), allPriced l = true →
      ∃ out, allocItems pct l = .ok out ∧
        out.map (fun x => x.1) = l.map Prod.fst := by
  intro l
  induction l with
  | nil => intro _; exact ⟨[], rfl, rfl⟩
  | cons x rest ih =>
    intro hp
    obtain ⟨t, it⟩ := x
    simp only [allPriced, List.all_cons, Bool.and_eq_true] at hp
    obtain ⟨hx, hrest⟩ := hp
    obtain ⟨p, hps⟩ := Option.isSome_iff_exists.mp hx
    obtain ⟨out, hout, hmap⟩ := ih hrest
    refine ⟨(t, it, p + round2 (p * pct)) :: out, ?_, ?_⟩
    · simp only [allocItems, hps, hout]
    · simp [hmap]

/-- A fully priced item list sums without error. -/
theorem sumPrices_ok :
    ∀ l : List (String × Item), allPriced l = true → ∃ q, sumPrices l = .ok q := by
  intro l
  induction l with
  | nil => intro _; exact ⟨0, rfl⟩
  | cons x rest ih =>
    intro hp
    obtain ⟨t, it⟩ := x
    simp only [allPriced, List.all_cons, Bool.and_eq_true] at hp
    obtain ⟨hx, hrest⟩ := hp
    obtain ⟨p, hps⟩ := Option.isSome_iff_exists.mp hx
    obtain ⟨q, hq⟩ := ih (by simpa [allPriced] using hrest)
    exact ⟨p + q, by simp only [sumPrices, hps, hq]⟩

theorem sumAmounts_append (l₁ l₂ : List (String × Item × ℚ)) :
    sumAmounts (l₁ ++ l₂) = sumAmounts l₁ + sumAmounts l₂ := by
  induction l₁ with
  | nil => simp [sumAmounts]
  | cons x rest ih => simp [sumAmounts, ih, add_assoc]

/-- The rounding adjustment touches only the last list entry: sum shifts by
exactly the residual. -/
theorem sumAmounts_adjustLast (l : List (String × Item × ℚ)) (d : ℚ) (h : l ≠ []) :
    sumAmounts (adjustLast l d) = sumAmounts l + d := by
  rcases l.eq_nil_or_concat' with rfl | ⟨init, b, rfl⟩
  · exact absurd rfl h
  · obtain ⟨t, it, a⟩ := b
    simp only [adjustLast, List.getLast?_concat, List.dropLast_concat]
    simp [sumAmounts_append, sumAmounts, add_assoc]

theorem adjustLast_dropLast (l : List (String × Item × ℚ)) (d : ℚ) :
    (adjustLast l d).dropLast = l.dropLast := by
  rcases l.eq_nil_or_concat' with rfl | ⟨init, b, rfl⟩
  · rfl
  · obtain ⟨t, it, a⟩ := b
    simp only [adjustLast, List.getLast?_concat, List.dropLast_concat]

theorem adjustLast_getLast? (l : List (String × Item × ℚ)) (d : ℚ)
    (t : String) (it : Item) (a : ℚ) (h : l.getLast? = some (t, it, a)) :
    (adjustLast l d).getLast? = some (t, it, a + d) := by
  rcases l.eq_nil_or_concat' with rfl | ⟨init, b, rfl⟩
  · simp at h
  · rw [List.getLast?_concat] at h
    obtain rfl : b = (t, it, a) := by injection h
    simp only [adjustLast, List.getLast?_concat, List.dropLast_concat]

theorem adjustLast_map_fst (l : List (String × Item × ℚ)) (d : ℚ) :
    (adjustLast l d).map (fun x => x.1) = l.map (fun x => x.1) := by
  rcases l.eq_nil_or_concat' with rfl | ⟨init, b, rfl⟩
  · rfl
  · obtain ⟨t, it, a⟩ := b
    simp only [adjustLast, List.getLast?_concat, List.dropLast_concat]
    simp

theorem mkTxns_neg_sum (o : String) (dt : ℤ) (m : String) :
    ∀ (l : List (String × Item × ℚ)) (n : ℕ),
      ((mkTxns o dt m n l).map (fun tx => -tx.amount)).sum = sumAmounts l := by
  intro l
  induction l with
  | nil => intro n; simp [mkTxns, sumAmounts]
  | cons x rest ih =>
    intro n
    obtain ⟨t, it, a⟩ := x
    simp [mkTxns, sumAmounts, ih (n + 1)]

theorem mkTxns_memo (o : String) (dt : ℤ) (m : String) :
    ∀ (l : List (String × Item × ℚ)) (n : ℕ) (tx : Txn),
      tx ∈ mkTxns o dt m n l → tx.memo = m := by
  intro l
  induction l with
  | nil => intro n tx h; simp [mkTxns] at h
  | cons x rest ih =>
    intro n tx h
    obtain ⟨t, it, a⟩ := x
    simp only [mkTxns, List.mem_cons] at h
    rcases h with rfl | h
    · rfl
    · exact ih (n + 1) tx h

theorem mkTxns_credit_iff (o : String) (dt : ℤ) (m : String) :
    ∀ (l : List (String × Item × ℚ)) (n : ℕ) (tx : Txn),
      tx ∈ mkTxns o dt m n l → (tx.type = "CREDIT" ↔ 0 < tx.amount) := by
  intro l
  induction l with
  | nil => intro n tx h; simp [mkTxns] at h
  | cons x rest ih =>
    intro n tx h
    obtain ⟨t, it, a⟩ := x
    simp only [mkTxns, List.mem_cons] at h
    rcases h with rfl | h
    · by_cases ha : a < 0 <;> simp [ha, neg_pos]
    · exact ih (n + 1) tx h

theorem mkTxns_names (o : String) (dt : ℤ) (m : String) :
    ∀ (l : List (String × Item × ℚ)) (n : ℕ),
      (mkTxns o dt m n l).map Txn.name = l.map (fun x => x.1) := by
  intro l
  induction l with
  | nil => intro n; rfl
  | cons x rest ih =>
    intro n
    obtain ⟨t, it, a⟩ := x
    simp [mkTxns, ih (n + 1)]

/-- Unfolding of the per-receipt generator once its guards pass and the
allocation succeeds. -/
theorem generate_ofx_receipt_eq (accountId : String) (r : Receipt)
    (titems : List (String × Item × ℚ))
    (hne : r.items ≠ []) (ht : r.total ≠ 0)
    (halloc : allocItems (r.tax / r.total) r.items = .ok titems) :
    generate_ofx_receipt accountId r =
      if sumAmounts (adjustLast titems (round2 (r.total - sumAmounts titems))) ≠ r.total
      then .ok none
      else .ok (some (mkTxns r.orderId r.date
                 (mkMemo accountId r.appleId (lastDuration r.items)) 1
                 (adjustLast titems (round2 (r.total - sumAmounts titems))))) := by
  simp only [generate_ofx_receipt, if_neg hne, if_neg ht, halloc]

/-- Inversion: an emitted transaction list pins down every intermediate of
the generator. -/
theorem generate_ofx_receipt_some_inv (accountId : String) (r : Receipt) (txns : List Txn)
    (h : generate_ofx_receipt accountId r = .ok (some txns)) :
    r.items ≠ [] ∧ r.total ≠ 0 ∧
    ∃ titems, allocItems (r.tax / r.total) r.items = .ok titems ∧
      sumAmounts (adjustLast titems (round2 (r.total - sumAmounts titems))) = r.total ∧
      txns = mkTxns r.orderId r.date
               (mkMemo accountId r.appleId (lastDuration r.items)) 1
               (adjustLast titems (round2 (r.total - sumAmounts titems))) := by
  by_cases hne : r.items = []
  · simp [generate_ofx_receipt, hne] at h
  · by_cases ht : r.total = 0
    · simp [generate_ofx_receipt, hne, ht] at h
    · refine ⟨hne, ht, ?_⟩
      rcases halloc : allocItems (r.tax / r.total) r.items with e | titems
      · simp [generate_ofx_receipt, hne, ht, halloc] at h
      · rw [generate_ofx_receipt_eq accountId r titems hne ht halloc] at h
        by_cases hsum :
            sumAmounts (adjustLast titems (round2 (r.total - sumAmounts titems))) ≠ r.total
        · simp [if_pos hsum] at h
        · rw [if_neg hsum] at h
          refine ⟨titems, rfl, not_not.mp hsum, ?_⟩
          injection h with h1
          injection h1 with h2
          exact h2.symm

/-!  ### Claim C1  -/

/-- C1: for every receipt that is emitted into the ledger, the rounding
residual `round(total - sum(finalAmount), 2)` is added entirely to the last
item's final amount (the earlier entries are untouched and the last entry
gains exactly the residual), after which the emitted transactions'
final-amount sum equals `receipt.total` exactly; a receipt whose recomputed
sum still differs from the total is dropped (`.ok none` — it contributes no
transactions). -/
theorem residual_correction_reconciles (accountId : String) (r : Receipt)
    (hne : r.items ≠ []) (hpr : allPriced r.items = true) (ht : r.total ≠ 0) :
    ∃ titems,
      allocItems (r.tax / r.total) r.items = .ok titems ∧
      (∀ t it a, titems.getLast? = some (t, it, a) →
        (adjustLast titems (round2 (r.total - sumAmounts titems))).getLast?
          = some (t, it, a + round2 (r.total - sumAmounts titems))) ∧
      (adjustLast titems (round2 (r.total - sumAmounts titems))).dropLast = titems.dropLast ∧
      sumAmounts (adjustLast titems (round2 (r.total - sumAmounts titems)))
        = sumAmounts titems + round2 (r.total - sumAmounts titems) ∧
      (∀ txns, generate_ofx_receipt accountId r = .ok (some txns) →
        (txns.map (fun tx => -tx.amount)).sum = r.total) ∧
      (sumAmounts (adjustLast titems (round2 (r.total - sumAmounts titems))) ≠ r.total →
        generate_ofx_receipt accountId r = .ok none) := by
  obtain ⟨titems, halloc, hmap⟩ := allocItems_ok (r.tax / r.total) r.items hpr
  have htne : titems ≠ [] := by
    intro h0
    rw [h0] at hmap
    exact hne (List.map_eq_nil_iff.mp hmap.symm)
  refine ⟨titems, halloc, ?_, adjustLast_dropLast _ _,
          sumAmounts_adjustLast _ _ htne, ?_, ?_⟩
  · intro t it a hlast
    exact adjustLast_getLast? _ _ _ _ _ hlast
  · intro txns hgen
    obtain ⟨-, -, titems', halloc', hsum', htx⟩ :=
      generate_ofx_receipt_some_inv accountId r txns hgen
    have heq : titems' = titems := by
      rw [halloc] at halloc'
      injection halloc' with heq0
      exact heq0.symm
    subst heq
    rw [htx, mkTxns_neg_sum]
    exact hsum'
  · intro hbad
    rw [generate_ofx_receipt_eq accountId r titems hne ht halloc, if_pos hbad]

/-- Concrete receipt for the C1 witness: two items at 5.00 and 3.00, tax
0.56, total 8.56. -/
def rcptC1 : Receipt :=
  ⟨"ORD1", "a@x", [("A", ⟨"A", "", "", some 5⟩), ("B", ⟨"B", "", "", some 3⟩)],
   8, 56 / 100, 856 / 100, 0, "r@x"⟩

/-- C1 witness: the hypotheses of `residual_correction_reconciles` hold at
`rcptC1`, and the theorem applies there. -/
theorem residual_correction_reconciles_witness :
    (rcptC1.items ≠ [] ∧ allPriced rcptC1.items = true ∧ rcptC1.total ≠ 0) ∧
    (∃ titems,
      allocItems (rcptC1.tax / rcptC1.total) rcptC1.items = .ok titems ∧
      (∀ t it a, titems.getLast? = some (t, it, a) →
        (adjustLast titems (round2 (rcptC1.total - sumAmounts titems))).getLast?
          = some (t, it, a + round2 (rcptC1.total - sumAmounts titems))) ∧
      (adjustLast titems (round2 (rcptC1.total - sumAmounts titems))).dropLast
        = titems.dropLast ∧
      sumAmounts (adjustLast titems (round2 (rcptC1.total - sumAmounts titems)))
        = sumAmounts titems + round2 (rcptC1.total - sumAmounts titems) ∧
      (∀ txns, generate_ofx_receipt "acct" rcptC1 = .ok (some txns) →
        (txns.map (fun tx => -tx.amount)).sum = rcptC1.total) ∧
      (sumAmounts (adjustLast titems (round2 (rcptC1.total - sumAmounts titems)))
          ≠ rcptC1.total →
        generate_ofx_receipt "acct" rcptC1 = .ok none)) :=
  ⟨⟨by with_unfolding_all decide, by with_unfolding_all decide,
    by with_unfolding_all decide⟩,
   residual_correction_reconciles "acct" rcptC1 (by with_unfolding_all decide)
     (by with_unfolding_all decide) (by with_unfolding_all decide)⟩

/-!  ### Claim C2  -/

/-- A receipt with a non-empty item list and a zero total, fed to the
ledger generator. -/
def rcptC2 : Receipt :=
  ⟨"ORD2", "a@x", [("A", ⟨"A", "", "", some 5⟩)], 5, 0, 0, 0, "r@x"⟩

/-- C2 counterexample: the claim says a zero-total receipt is *skipped*
(guarded division) rather than causing a failure.  In the code
`tax_percentage = receipt_tax / receipt_total` is not guarded: on a
zero-total receipt the `Decimal` division raises, the allocation fails
(`.error`, not the skip `.ok none`), and since `generate_ofx_output` has no
handler the whole run aborts. -/
theorem zero_total_receipt_crashes_allocator :
    generate_ofx_receipt "acct" rcptC2 = .error () ∧
    generate_ofx_receipt "acct" rcptC2 ≠ .ok none ∧
    generate_ofx_output [rcptC2] "acct" = .error () := by
  refine ⟨?_, ?_, ?_⟩ <;> with_unfolding_all decide

/-- C2 amended: the allocator's division by the receipt total is not
guarded — on a zero total it fails (aborting OFX generation) instead of
skipping the receipt; zero-total receipts are kept away from the allocator
only by the validator's completeness check, which never accepts a receipt
whose (sign-corrected) total is zero. -/
theorem allocator_division_unguarded (accountId : String) (r : Receipt)
    (hne : r.items ≠ []) (h0 : r.total = 0) :
    generate_ofx_receipt accountId r = .error () ∧
    generate_ofx_output [r] accountId = .error () ∧
    (∀ st d rec rc, validate_receipt st d rec = .ok (some rc) → rc.total ≠ 0) := by
  have hgen : generate_ofx_receipt accountId r = .error () := by
    simp [generate_ofx_receipt, hne, h0]
  refine ⟨hgen, ?_, ?_⟩
  · simp [generate_ofx_output, generate_ofx_loop, hgen]
  · intro st d rec rc hv
    rcases hsum : sumPrices st.items with e | q
    · simp [validate_receipt, hsum] at hv
    · simp only [validate_receipt, hsum] at hv
      split at hv
      all_goals
        split at hv
        · rename_i hcond
          injection hv with hv1
          injection hv1 with hv2
          rw [← hv2]
          exact hcond.2.2.2.1
        · simp at hv

/-- C2 witness: `allocator_division_unguarded` applies at `rcptC2` and at a
concretely accepted validator output. -/
theorem allocator_division_unguarded_witness :
    (rcptC2.items ≠ [] ∧ rcptC2.total = 0) ∧
    generate_ofx_receipt "acct" rcptC2 = .error () ∧
    (Receipt.total ⟨"O", "a@x", [("A", ⟨"A", "", "", some 5⟩)], 5, 0, 5, 7, "r@x"⟩ ≠ 0) :=
  ⟨⟨by with_unfolding_all decide, by with_unfolding_all decide⟩,
   (allocator_division_unguarded "acct" rcptC2 (by with_unfolding_all decide)
      (by with_unfolding_all decide)).1,
   (allocator_division_unguarded "acct" rcptC2 (by with_unfolding_all decide)
      (by with_unfolding_all decide)).2.2
     ⟨"a@x", "O", [("A", ⟨"A", "", "", some 5⟩)], 5, 0, 5⟩ 7 "r@x"
     ⟨"O", "a@x", [("A", ⟨"A", "", "", some 5⟩)], 5, 0, 5, 7, "r@x"⟩
     (by with_unfolding_all decide)⟩

/-!  ### Claim C3  -/

/-- Receipt with two items: the first carries a duration note, the last
does not, and the purchasing Apple id differs from the ledger account. -/
def rcptC3 : Receipt :=
  ⟨"ORD", "family@x.com",
   [("A", ⟨"A", "1 Month", "", some 5⟩), ("B", ⟨"B", "", "", some 3⟩)],
   8, 0, 8, 0, "r@x"⟩

/-- C3 counterexample: the claim says the `"; Subscription: {duration}"`
part is appended when and only when *that specific item* carries a
duration note.  Item `"A"` of `rcptC3` carries duration `"1 Month"`, yet
its emitted transaction's memo is only `"Apple ID: family@x.com"`: the
code builds one memo per receipt from the leftover loop variable `item`
(the receipt's *last* item, here `"B"` with no duration) and stamps it on
every transaction. -/
theorem memo_ignores_own_item_duration :
    generate_ofx_receipt "owner@x.com" rcptC3 =
      .ok (some [⟨"DEBIT", 0, -5, "ORD-1", "A", "Apple ID: family@x.com"⟩,
                 ⟨"DEBIT", 0, -3, "ORD-2", "B", "Apple ID: family@x.com"⟩]) ∧
    rcptC3.items.map (fun p => p.2.duration) = ["1 Month", ""] := by
  constructor <;> with_unfolding_all decide

/-- The memo as the amended claim words it: the shared-billing part when
the purchasing id differs from the ledger account, then the subscription
part exactly when the *last* item of the receipt carries a duration note. -/
def claimed_memo (accountId appleId dur : String) : String :=
  (if appleId ≠ accountId then "Apple ID: " ++ appleId else "") ++
  (if dur ≠ "" then
     (if appleId ≠ accountId then "; " else "") ++ "Subscription: " ++ dur
   else "")

/-- The source's memo computation agrees with the amended claim's. -/
theorem mkMemo_eq_claimed (accountId appleId dur : String) :
    mkMemo accountId appleId dur = claimed_memo accountId appleId dur := by
  unfold mkMemo claimed_memo
  have hne0 : ∀ s : String, "Apple ID: " ++ s ≠ "" := by
    intro s hc
    have hlen := congrArg String.length hc
    rw [String.length_append] at hlen
    simp at hlen
    exact absurd hlen.1 (by decide)
  have hmerge : ∀ s : String, "; " ++ ("Subscription: " ++ s) = "; Subscription: " ++ s := by
    intro s
    have h0 : ("; " : String) ++ "Subscription: " = "; Subscription: " := by decide
    rw [← String.append_assoc, h0]
  by_cases h1 : appleId ≠ accountId <;> by_cases h2 : dur ≠ "" <;>
    simp [h1, h2, hne0, String.append_assoc, hmerge]

/-- C3 amended: every transaction of a receipt carries one and the same
memo, equal to `"Apple ID: {vendorAccountId}"` when and only when the
receipt's Apple id differs from the ledger account id, further appended
with `"; Subscription: {duration}"` when and only when the *last* item of
the receipt carries a duration note (the per-item claim holds only for
that last item — in particular for single-item receipts such as the
spec's memo example). -/
theorem memo_per_receipt_from_last_item (accountId : String) (r : Receipt)
    (txns : List Txn) (h : generate_ofx_receipt accountId r = .ok (some txns)) :
    ∀ tx ∈ txns, tx.memo = claimed_memo accountId r.appleId (lastDuration r.items) := by
  intro tx htx
  obtain ⟨-, -, titems, -, -, htxns⟩ := generate_ofx_receipt_some_inv accountId r txns h
  rw [htxns] at htx
  rw [mkTxns_memo _ _ _ _ _ _ htx, mkMemo_eq_claimed]

/-- Single-item receipt realizing the spec's memo example. -/
def rcptC3w : Receipt :=
  ⟨"OW", "family@x.com", [("Sub", ⟨"Sub", "1 Month", "", some 5⟩)], 5, 0, 5, 0, "r@x"⟩

/-- C3 witness: `memo_per_receipt_from_last_item` applied at `rcptC3w`
reproduces the spec's memo example
`"Apple ID: family@x.com; Subscription: 1 Month"`. -/
theorem memo_per_receipt_from_last_item_witness :
    Txn.memo ⟨"DEBIT", 0, -5, "OW-1", "Sub",
              "Apple ID: family@x.com; Subscription: 1 Month"⟩ =
      "Apple ID: family@x.com; Subscription: 1 Month" :=
  (memo_per_receipt_from_last_item "owner@x.com" rcptC3w
      [⟨"DEBIT", 0, -5, "OW-1", "Sub", "Apple ID: family@x.com; Subscription: 1 Month"⟩]
      (by with_unfolding_all decide) _ (List.mem_singleton.mpr rfl)).trans
    (by with_unfolding_all decide)

/-!  ### Claim C4  -/

/-- Legacy section whose order id parses to `"OLD4"`. -/
def legC4 : LegacySection :=
  ⟨.lastText "a4@x", .lastText "OLD4", [], .noCell, .noCell, .cellText "5.00"⟩

/-- Current section whose order id is `"NEW4"`. -/
def curC4 : CurrentSection := ⟨.val "NEW4", .val "new4@x", none, none⟩

/-- C4 counterexample: the claim says a document containing the legacy
container marker is processed *only* by the legacy logic and never by the
current-layout logic.  A document carrying both markers contains the
legacy marker, yet its extracted identifiers are the current pass's
(`"NEW4"`, `"new4@x"`), not the legacy pass's (`"OLD4"`, `"a4@x"`): the two
marker checks are sequential, not exclusive, and both passes ran. -/
theorem both_markers_run_both_passes :
    extract_receipt_fields ⟨some legC4, some curC4⟩ = .ok ⟨"new4@x", "NEW4", [], 0, 0, 5⟩ ∧
    extract_receipt_fields ⟨some legC4, none⟩ = .ok ⟨"a4@x", "OLD4", [], 0, 0, 5⟩ := by
  constructor <;> with_unfolding_all decide

/-- C4 amended: dispatch is sequential rather than exclusive.  A document
with only the legacy marker is processed exactly by the legacy pass, a
document with only the current marker exactly by the current pass, and a
document with neither marker keeps the empty initial fields and is
excluded from the batch (a document with both markers runs both passes —
see the C9 theorems). -/
theorem layout_dispatch_sequential :
    (∀ (d : Doc) (L : LegacySection), d.legacy = some L → d.current = none →
       extract_receipt_fields d = legacy_pass L initState) ∧
    (∀ (d : Doc) (C : CurrentSection), d.legacy = none → d.current = some C →
       extract_receipt_fields d = current_pass C initState) ∧
    (∀ (d : Doc) (date : ℤ) (rec : String), d.legacy = none → d.current = none →
       extract_receipt_fields d = .ok initState ∧
       process_email (some date) (some rec) (some d) = none) := by
  refine ⟨?_, ?_, ?_⟩
  · intro d L h1 h2
    rcases hres : legacy_pass L initState with e | st1 <;>
      simp [extract_receipt_fields, h1, h2, hres]
  · intro d C h1 h2
    simp [extract_receipt_fields, h1, h2]
  · intro d date rec h1 h2
    refine ⟨by simp [extract_receipt_fields, h1, h2], ?_⟩
    simp [process_email, extract_receipt_fields, h1, h2, validate_receipt, sumPrices,
          initState]

/-- C4 witness: the three dispatch conjuncts applied at concrete
single-marker and no-marker documents. -/
theorem layout_dispatch_sequential_witness :
    extract_receipt_fields ⟨some legC4, none⟩ = legacy_pass legC4 initState ∧
    extract_receipt_fields ⟨none, some curC4⟩ = current_pass curC4 initState ∧
    process_email (some 0) (some "r@x") (some ⟨none, none⟩) = none :=
  ⟨layout_dispatch_sequential.1 ⟨some legC4, none⟩ legC4 rfl rfl,
   layout_dispatch_sequential.2.1 ⟨none, some curC4⟩ curC4 rfl rfl,
   (layout_dispatch_sequential.2.2 ⟨none, none⟩ 0 "r@x" rfl rfl).2⟩

/-!  ### Claim C5  -/

/-- Current-layout section with a zero-priced balance top-up item followed
by an ordinary 10.00 item. -/
def curC5 : CurrentSection :=
  ⟨.val "ORD5", .val "a5@x",
   some [⟨3, ["Money added to Apple Account", "", ""], "$0.00"⟩,
         ⟨3, ["App", "", ""], "$10.00"⟩],
   some ⟨.val "$10.00", .val "$0.00", some "$10.00"⟩⟩

/-- The receipt the pipeline produces from `curC5`. -/
def rcptC5 : Receipt :=
  ⟨"ORD5", "a5@x",
   [("Money added to Apple Account", ⟨"Money added to Apple Account", "", "", some 0⟩),
    ("App", ⟨"App", "", "", some 10⟩)],
   10, 0, 10, 0, "r@x"⟩

/-- C5 counterexample: the claim says every item whose title starts with
`"Money added to"` yields a CREDIT transaction.  A top-up item printed at
`$0.00` is negated to price `0` (still `≤ 0`), but its final amount is `0`,
which is not `< 0`, so the emitted transaction type is DEBIT — refuting the
unconditional CREDIT half of the claim on a document the extractor itself
produces. -/
theorem zero_price_top_up_is_debit :
    process_email (some 0) (some "r@x") (some ⟨none, some curC5⟩) = some rcptC5 ∧
    generate_ofx_receipt "a5@x" rcptC5 =
      .ok (some [⟨"DEBIT", 0, 0, "ORD5-1", "Money added to Apple Account", ""⟩,
                 ⟨"DEBIT", 0, -10, "ORD5-2", "App", ""⟩]) ∧
    strStartsWith "Money added to Apple Account" "Money added to" = true := by
  refine ⟨?_, ?_, ?_⟩ <;> with_unfolding_all decide

/-- C5 amended: the price of a `"Money added to"` item is negated
immediately after extraction, so it is `≤ 0` whenever the printed price is
`≥ 0`; and an emitted transaction's type is CREDIT when and only when its
final amount is negative (so a zero-priced top-up yields DEBIT, not
CREDIT). -/
theorem money_added_sign_and_credit :
    (∀ (t : String) (p : ℚ), strStartsWith t "Money added to" = true → 0 ≤ p →
       apply_money_added_sign t p ≤ 0) ∧
    (∀ (accountId : String) (r : Receipt) (txns : List Txn),
       generate_ofx_receipt accountId r = .ok (some txns) →
       ∀ tx ∈ txns, tx.type = "CREDIT" ↔ 0 < tx.amount) := by
  constructor
  · intro t p hstart hp
    unfold apply_money_added_sign
    rw [if_pos hstart]
    exact neg_nonpos.mpr hp
  · intro accountId r txns h tx htx
    obtain ⟨-, -, titems, -, -, htxns⟩ := generate_ofx_receipt_some_inv accountId r txns h
    rw [htxns] at htx
    exact mkTxns_credit_iff _ _ _ _ _ _ htx

/-- Single ordinary-item receipt for the C5 witness. -/
def rcptC5w : Receipt := ⟨"OW5", "a", [("App", ⟨"App", "", "", some 10⟩)], 10, 0, 10, 0, "r"⟩

/-- C5 witness: both halves of `money_added_sign_and_credit` applied at
concrete inputs. -/
theorem money_added_sign_and_credit_witness :
    apply_money_added_sign "Money added to Apple ID Balance" 5 ≤ 0 ∧
    (Txn.type ⟨"DEBIT", 0, -10, "OW5-1", "App", ""⟩ = "CREDIT" ↔
      0 < Txn.amount ⟨"DEBIT", 0, -10, "OW5-1", "App", ""⟩) :=
  ⟨money_added_sign_and_credit.1 "Money added to Apple ID Balance" 5
     (by with_unfolding_all decide) (by with_unfolding_all decide),
   money_added_sign_and_credit.2 "a" rcptC5w [⟨"DEBIT", 0, -10, "OW5-1", "App", ""⟩]
     (by with_unfolding_all decide) _ (List.mem_singleton.mpr rfl)⟩

/-!  ### Claim C6  -/

/-- A dict holding an item without a `price` key makes line 289's
`sum(item['price'] ...)` raise `KeyError`. -/
theorem sumPrices_err :
    ∀ l : List (String × Item), allPriced l = false → sumPrices l = .error () := by
  intro l
  induction l with
  | nil => intro h; simp [allPriced] at h
  | cons x rest ih =>
    intro h
    obtain ⟨t, it⟩ := x
    rcases hp : it.price with - | p
    · simp [sumPrices, hp]
    · have hrest : allPriced rest = false := by
        simpa [allPriced, hp] using h
      simp [sumPrices, hp, ih hrest]

/-- Legacy section whose single item row has no enclosing `tr`: the item
is stored without a `price` key, while both identifiers and the total
still extract. -/
def legC6 : LegacySection :=
  ⟨.lastText "a6@x", .lastText "O6", [⟨some "App", none, none, none⟩],
   .noCell, .noCell, .cellText "$5.00"⟩

/-- The state extracted from `legC6`: every completeness field of the
claim is present, but the item carries no price. -/
def stC6bad : RState := ⟨"a6@x", "O6", [("App", ⟨"App", "", "", none⟩)], 0, 0, 5⟩

/-- C6 counterexample: the claim's "if" direction fails.  This document
extracts with non-empty order id, Apple id, items and a non-zero total,
and is processed with a date and a non-empty recipient — every condition
of the claimed biconditional holds — yet `process_email` returns `none`:
the stored item has no `price` key (its cell has no `tr` ancestor, line
158's `if(row)` guard), so line 289's price sum raises `KeyError` and the
document is rejected. -/
theorem priceless_item_rejects_complete_document :
    extract_receipt_fields ⟨some legC6, none⟩ = .ok stC6bad ∧
    (stC6bad.orderId ≠ "" ∧ stC6bad.appleId ≠ "" ∧ stC6bad.items ≠ [] ∧
     stC6bad.total ≠ 0 ∧ ("r@x" : String) ≠ "") ∧
    process_email (some 0) (some "r@x") (some ⟨some legC6, none⟩) = none := by
  refine ⟨?_, ?_, ?_⟩ <;> with_unfolding_all decide

/-- C6 amended: for a parsed document all of whose stored items carry a
price, the result is a Receipt if and only if the extracted order id,
Apple id and recipient address are non-empty, the item dict is non-empty,
the date header is present, and the extracted total is non-zero (the
acceptance check reads the sign-corrected total, which is zero exactly
when the extracted total is); but a document that stores an item without
a price — a legacy row whose cell has no enclosing `tr` — is always
rejected, the price sum raising `KeyError`, even when all of those
conditions hold.  In every rejected case the result is `none` and the
document contributes nothing to the batch. -/
theorem receipt_acceptance_iff_complete (dateHdr : Option ℤ) (rec : String) (d : Doc)
    (st : RState) (hex : extract_receipt_fields d = .ok st) :
    (allPriced st.items = true →
      ((process_email dateHdr (some rec) (some d)).isSome = true ↔
        (dateHdr.isSome ∧ st.orderId ≠ "" ∧ st.appleId ≠ "" ∧ st.items ≠ [] ∧
         st.total ≠ 0 ∧ rec ≠ ""))) ∧
    (allPriced st.items = false →
      process_email dateHdr (some rec) (some d) = none) := by
  constructor
  case right =>
    intro hnp
    cases dateHdr with
    | none => rfl
    | some dt => simp [process_email, hex, validate_receipt, sumPrices_err st.items hnp]
  case left =>
  intro hpr
  cases dateHdr with
  | none => simp [process_email]
  | some dt =>
    obtain ⟨q, hq⟩ := sumPrices_ok st.items hpr
    have htot : ((if q < 0 then -st.total else st.total) ≠ 0) ↔ st.total ≠ 0 := by
      by_cases hq0 : q < 0 <;> simp [hq0]
    constructor
    · intro hr
      by_cases hcond : st.orderId ≠ "" ∧ st.appleId ≠ "" ∧ st.items ≠ [] ∧
          (if q < 0 then -st.total else st.total) ≠ 0 ∧ rec ≠ ""
      · exact ⟨rfl, hcond.1, hcond.2.1, hcond.2.2.1, htot.mp hcond.2.2.2.1,
               hcond.2.2.2.2⟩
      · exfalso
        simp only [process_email, hex, validate_receipt, hq] at hr
        rw [if_neg hcond] at hr
        simp at hr
    · rintro ⟨-, h1, h2, h3, h4, h5⟩
      simp only [process_email, hex, validate_receipt, hq]
      rw [if_pos ⟨h1, h2, h3, htot.mpr h4, h5⟩]
      rfl

/-- The state extracted from the C5 document, reused to witness C6. -/
def stC6 : RState :=
  ⟨"a5@x", "ORD5",
   [("Money added to Apple Account", ⟨"Money added to Apple Account", "", "", some 0⟩),
    ("App", ⟨"App", "", "", some 10⟩)],
   10, 0, 10⟩

/-- C6 witness: the all-priced half instantiated at a concrete document
whose extraction and validation both run, and the priceless half at the
concrete legacy document `legC6`. -/
theorem receipt_acceptance_iff_complete_witness :
    ((process_email (some 0) (some "r@x") (some ⟨none, some curC5⟩)).isSome = true ↔
      ((some (0 : ℤ)).isSome ∧ stC6.orderId ≠ "" ∧ stC6.appleId ≠ "" ∧
       stC6.items ≠ [] ∧ stC6.total ≠ 0 ∧ "r@x" ≠ "")) ∧
    process_email (some 7) (some "w@x") (some ⟨some legC6, none⟩) = none :=
  ⟨(receipt_acceptance_iff_complete (some 0) "r@x" ⟨none, some curC5⟩ stC6
      (by with_unfolding_all decide)).1 (by with_unfolding_all decide),
   (receipt_acceptance_iff_complete (some 7) "w@x" ⟨some legC6, none⟩ stC6bad
      (by with_unfolding_all decide)).2 (by with_unfolding_all decide)⟩

/-!  ### Claim C7  -/

/-- C7: during validation, if the item-price sum (`calculated_subtotal`)
is negative the extracted total is negated before the acceptance check
(the accepted receipt carries the negated total), and if both the
extracted tax and the extracted subtotal are zero the accepted receipt's
subtotal is the calculated one. -/
theorem validator_corrections (st : RState) (date : ℤ) (rec : String) (q : ℚ)
    (hsum : sumPrices st.items = .ok q) (r : Receipt)
    (hv : validate_receipt st date rec = .ok (some r)) :
    r.total = (if q < 0 then -st.total else st.total) ∧
    r.subtotal = (if st.tax = 0 ∧ st.subtotal = 0 then q else st.subtotal) := by
  simp only [validate_receipt, hsum] at hv
  split at hv
  all_goals
    split at hv
    · rename_i h1 h2
      injection hv with hv1
      injection hv1 with hv2
      rw [← hv2]
      simp [h1]
    · simp at hv

/-- C7 witness: a negative-sum state (a lone balance top-up of -10 with a
vendor-printed total of 10 and no tax) is accepted with the negated total
-10 and the calculated subtotal -10. -/
theorem validator_corrections_witness :
    Receipt.total ⟨"O7", "a7@x", [("Money added to X", ⟨"Money added to X", "", "", some (-10)⟩)],
        -10, 0, -10, 3, "r@x"⟩ =
      (if (-10 : ℚ) < 0 then -(10 : ℚ) else 10) ∧
    Receipt.subtotal ⟨"O7", "a7@x",
        [("Money added to X", ⟨"Money added to X", "", "", some (-10)⟩)],
        -10, 0, -10, 3, "r@x"⟩ =
      (if (0 : ℚ) = 0 ∧ (0 : ℚ) = 0 then (-10 : ℚ) else 0) :=
  validator_corrections
    ⟨"a7@x", "O7", [("Money added to X", ⟨"Money added to X", "", "", some (-10)⟩)], 0, 0, 10⟩
    3 "r@x" (-10) (by with_unfolding_all decide)
    ⟨"O7", "a7@x", [("Money added to X", ⟨"Money added to X", "", "", some (-10)⟩)],
     -10, 0, -10, 3, "r@x"⟩
    (by with_unfolding_all decide)

/-!  ### Inversion of the current-layout pass (shared by C8 and C9)  -/

/-- A successful current-layout pass pins down each intermediate: the
identifiers come from the section's own labels, the items from folding the
section's rows into the incoming dict, and the summary amounts either stay
as they were (no payment div) or are parsed from the payment div. -/
theorem current_pass_ok_shape (C : CurrentSection) (st r : RState)
    (h : current_pass C st = .ok r) :
    ∃ oid aid its,
      extract_info C.orderIdSrc = .ok oid ∧
      extract_info C.appleIdSrc = .ok aid ∧
      r.orderId = oid ∧ r.appleId = aid ∧ r.items = its ∧
      (match C.itemsTable with
       | none => Except.ok st.items
       | some rows => foldRows currentRowItem rows st.items) = .ok its ∧
      ((C.payment = none ∧ r = ⟨aid, oid, its, st.subtotal, st.tax, st.total⟩) ∨
       (∃ pay sub tax subS taxS, C.payment = some pay ∧
          extract_info pay.subtotalSrc = .ok subS ∧
          parseMoney (stripDollar subS) = some sub ∧
          extract_info pay.taxSrc = .ok taxS ∧
          parseMoney (stripDollar taxS) = some tax ∧
          r.subtotal = sub ∧ r.tax = tax ∧
          ((pay.totalDivText = none ∧ r.total = st.total) ∨
           (∃ totS tot, pay.totalDivText = some totS ∧
              parseMoney (stripDollar totS) = some tot ∧ r.total = tot)))) := by
  unfold current_pass at h
  split at h
  · exact Except.noConfusion h
  · rename_i oid hoid
    split at h
    · exact Except.noConfusion h
    · rename_i aid haid
      split at h
      · exact Except.noConfusion h
      · rename_i its hits
        split at h
        · rename_i hpay
          obtain rfl : (⟨aid, oid, its, st.subtotal, st.tax, st.total⟩ : RState) = r := by
            injection h
          exact ⟨oid, aid, its, hoid, haid, rfl, rfl, rfl, hits, Or.inl ⟨hpay, rfl⟩⟩
        · rename_i pay hpay
          split at h
          · exact Except.noConfusion h
          · rename_i subS hsubS
            split at h
            · exact Except.noConfusion h
            · rename_i sub hsub
              split at h
              · exact Except.noConfusion h
              · rename_i taxS htaxS
                split at h
                · exact Except.noConfusion h
                · rename_i tax htax
                  split at h
                  · rename_i htot
                    obtain rfl : (⟨aid, oid, its, sub, tax, st.total⟩ : RState) = r := by
                      injection h
                    exact ⟨oid, aid, its, hoid, haid, rfl, rfl, rfl, hits,
                      Or.inr ⟨pay, sub, tax, subS, taxS, hpay, hsubS, hsub, htaxS, htax,
                        rfl, rfl, Or.inl ⟨htot, rfl⟩⟩⟩
                  · rename_i totS htotS
                    split at h
                    · exact Except.noConfusion h
                    · rename_i tot htot
                      obtain rfl : (⟨aid, oid, its, sub, tax, tot⟩ : RState) = r := by
                        injection h
                      exact ⟨oid, aid, its, hoid, haid, rfl, rfl, rfl, hits,
                        Or.inr ⟨pay, sub, tax, subS, taxS, hpay, hsubS, hsub, htaxS, htax,
                          rfl, rfl, Or.inr ⟨totS, tot, htotS, htot, rfl⟩⟩⟩

/-!  ### Claim C8  -/

/-- Current-layout section whose payment div is present but whose Subtotal
label has no following value paragraph. -/
def curC8 : CurrentSection :=
  ⟨.val "ORD8", .val "a8@x", some [⟨3, ["App", "", ""], "$5.00"⟩],
   some ⟨.noNextParagraph, .val "$0.00", some "$5.00"⟩⟩

/-- The same section with the Subtotal value present. -/
def curC8ok : CurrentSection :=
  ⟨.val "ORD8", .val "a8@x", some [⟨3, ["App", "", ""], "$5.00"⟩],
   some ⟨.val "$0.00", .val "$0.00", some "$5.00"⟩⟩

/-- C8 counterexample: the claim says a field with no value yields an
empty string / zero amount rather than an error that rejects the document.
In the current layout a Subtotal with no value makes `extract_info` return
`''` and `Money('')` then raises, rejecting the *whole document*
(`process_email = none`), although the identical document with the value
present is accepted — so the missing field, not missing content, caused
the rejection. -/
theorem missing_subtotal_rejects_document :
    process_email (some 0) (some "r@x") (some ⟨none, some curC8⟩) = none ∧
    process_email (some 0) (some "r@x") (some ⟨none, some curC8ok⟩) =
      some ⟨"ORD8", "a8@x", [("App", ⟨"App", "", "", some 5⟩)], 5, 0, 5, 0, "r@x"⟩ := by
  constructor <;> with_unfolding_all decide

/-- C8 amended: the legacy layout does default — identifiers whose label or
enclosing cell is missing yield `''` and summary amounts whose cell or row
is missing yield a zero amount — and in the current layout an identifier
whose label paragraph exists but whose value is missing yields `''`; but a
current-layout document whose payment div is present and whose subtotal has
no value raises and is rejected whole (as is one whose label paragraph is
missing, where `extract_info` itself raises `NameError`); the run
continues with other documents either way. -/
theorem field_defaults_by_layout :
    (extract_amount_from_div .noCell = 0 ∧ extract_amount_from_div .noRow = 0) ∧
    (extract_id .noLabel = .ok "" ∧ extract_id .noTd = .ok "") ∧
    (extract_info .noParagraph = .ok "" ∧ extract_info .noNextParagraph = .ok "" ∧
     extract_info .noLabel = .error ()) ∧
    (∀ (C : CurrentSection) (st : RState) (pay : PaymentInfo),
       C.payment = some pay → pay.subtotalSrc = .noNextParagraph →
       current_pass C st = .error ()) := by
  refine ⟨⟨rfl, rfl⟩, ⟨rfl, rfl⟩, ⟨rfl, rfl, rfl⟩, ?_⟩
  intro C st pay hpay hsub
  rcases hres : current_pass C st with e | r
  · cases e
    rfl
  · exfalso
    obtain ⟨oid, aid, its, -, -, -, -, -, -, hpayload⟩ := current_pass_ok_shape C st r hres
    rcases hpayload with ⟨hnone, -⟩ | ⟨pay', sub, tax, subS, taxS, hpay', hsubS, hsubparse, -⟩
    · rw [hpay] at hnone
      exact Option.noConfusion hnone
    · rw [hpay] at hpay'
      injection hpay' with hpe
      subst hpe
      rw [hsub] at hsubS
      have hS : subS = "" := ((by simpa [extract_info] using hsubS : ("" : String) = subS)).symm
      rw [hS] at hsubparse
      have : parseMoney (stripDollar "") = none := by decide
      rw [this] at hsubparse
      exact Option.noConfusion hsubparse

/-- C8 witness: the error path of `field_defaults_by_layout` realized at
the concrete section `curC8`. -/
theorem field_defaults_by_layout_witness :
    current_pass curC8 initState = .error () :=
  field_defaults_by_layout.2.2.2 curC8 initState
    ⟨.noNextParagraph, .val "$0.00", some "$5.00"⟩ rfl rfl

/-!  ### Claim C9  -/

/-- A successful item fold is a sequence of ordered-dict upserts into the
incoming accumulator. -/
theorem foldRows_upserts {α : Type} (f : α → Except Unit (Option (String × Item))) :
    ∀ (rows : List α) (acc its : List (String × Item)),
      foldRows f rows acc = .ok its →
      ∃ ins : List (String × Item),
        its = ins.foldl (fun a p => upsert a p.1 p.2) acc := by
  intro rows
  induction rows with
  | nil =>
    intro acc its h
    injection h with h'
    exact ⟨[], h'.symm⟩
  | cons rrow rest ih =>
    intro acc its h
    unfold foldRows at h
    split at h
    · exact Except.noConfusion h
    · exact ih acc its h
    · rename_i k v heq
      obtain ⟨ins, hins⟩ := ih (upsert acc k v) its h
      exact ⟨(k, v) :: ins, by simpa using hins⟩

/-- Legacy section parsing to ids `"a9@x"`, `"N9"` and amounts
5.00 / 0.50 / 5.50. -/
def legC9 : LegacySection :=
  ⟨.lastText "a9@x", .lastText "N9", [], .cellText "$5.00", .cellText "$0.50",
   .cellText "$5.50"⟩

/-- Current section with ids but no items table and no payment div. -/
def curC9 : CurrentSection := ⟨.val "NEW9", .val "new9@x", none, none⟩

/-- C9 counterexample: the claim says the current-layout pass overwrites
the identifiers *and summary amounts* produced by the legacy pass.  On a
both-marker document whose current section lacks the payment-information
container, the identifiers are indeed overwritten (`"NEW9"`, `"new9@x"`)
but the legacy summary amounts 5.00 / 0.50 / 5.50 survive untouched. -/
theorem legacy_amounts_survive_current_pass :
    extract_receipt_fields ⟨some legC9, some curC9⟩ =
      .ok ⟨"new9@x", "NEW9", [], 5, 1 / 2, 11 / 2⟩ := by
  with_unfolding_all decide

/-- C9 amended: on a both-marker document the two passes run in sequence
over the same accumulators; the completed current pass determines the
identifiers by itself (unconditional overwrite), determines subtotal and
tax by itself exactly when its payment-information container is present
(and the total when the post-`hr` div is present too), leaves all three
summary amounts untouched when the container is absent, and merges its
line items into the legacy-built dict by ordered-dict upserts. -/
theorem dual_pass_merge_semantics :
    (∀ (d : Doc) (L : LegacySection) (C : CurrentSection),
       d.legacy = some L → d.current = some C →
       extract_receipt_fields d =
         (match legacy_pass L initState with
          | .error e => .error e
          | .ok st1 => current_pass C st1)) ∧
    (∀ (C : CurrentSection) (st1 st2 r1 r2 : RState),
       current_pass C st1 = .ok r1 → current_pass C st2 = .ok r2 →
       r1.orderId = r2.orderId ∧ r1.appleId = r2.appleId ∧
       (∀ pay, C.payment = some pay →
          r1.subtotal = r2.subtotal ∧ r1.tax = r2.tax ∧
          (pay.totalDivText.isSome = true → r1.total = r2.total))) ∧
    (∀ (C : CurrentSection) (st r : RState), C.payment = none →
       current_pass C st = .ok r →
       r.subtotal = st.subtotal ∧ r.tax = st.tax ∧ r.total = st.total) ∧
    (∀ (C : CurrentSection) (st r : RState), current_pass C st = .ok r →
       ∃ ins : List (String × Item),
         r.items = ins.foldl (fun a p => upsert a p.1 p.2) st.items) := by
  refine ⟨?_, ?_, ?_, ?_⟩
  · intro d L C h1 h2
    simp [extract_receipt_fields, h1, h2]
  · intro C st1 st2 r1 r2 h1 h2
    obtain ⟨oid1, aid1, its1, hoid1, haid1, ho1, ha1, -, -, hpl1⟩ :=
      current_pass_ok_shape C st1 r1 h1
    obtain ⟨oid2, aid2, its2, hoid2, haid2, ho2, ha2, -, -, hpl2⟩ :=
      current_pass_ok_shape C st2 r2 h2
    have hoid : oid1 = oid2 := by
      rw [hoid1] at hoid2
      injection hoid2
    have haid : aid1 = aid2 := by
      rw [haid1] at haid2
      injection haid2
    refine ⟨by rw [ho1, ho2, hoid], by rw [ha1, ha2, haid], ?_⟩
    intro pay hpay
    rcases hpl1 with ⟨hn, -⟩ | ⟨pay1, sub1, tax1, subS1, taxS1, hpay1, hsubS1, hsub1,
        htaxS1, htax1, hrs1, hrt1, htot1⟩
    · rw [hpay] at hn
      exact absurd hn (by simp)
    rcases hpl2 with ⟨hn, -⟩ | ⟨pay2, sub2, tax2, subS2, taxS2, hpay2, hsubS2, hsub2,
        htaxS2, htax2, hrs2, hrt2, htot2⟩
    · rw [hpay] at hn
      exact absurd hn (by simp)
    rw [hpay] at hpay1 hpay2
    injection hpay1 with he1
    injection hpay2 with he2
    subst he1
    subst he2
    have hsS : subS1 = subS2 := by
      rw [hsubS1] at hsubS2
      injection hsubS2
    have htS : taxS1 = taxS2 := by
      rw [htaxS1] at htaxS2
      injection htaxS2
    have hsub : sub1 = sub2 := by
      rw [hsS, hsub2] at hsub1
      injection hsub1 with he
      exact he.symm
    have htax : tax1 = tax2 := by
      rw [htS, htax2] at htax1
      injection htax1 with he
      exact he.symm
    refine ⟨by rw [hrs1, hrs2, hsub], by rw [hrt1, hrt2, htax], ?_⟩
    intro hts
    rcases htot1 with ⟨hnone, -⟩ | ⟨totS1, tot1, htotS1, hparse1, hrtot1⟩
    · rw [hnone] at hts
      exact absurd hts (by simp)
    rcases htot2 with ⟨hnone, -⟩ | ⟨totS2, tot2, htotS2, hparse2, hrtot2⟩
    · rw [hnone] at hts
      exact absurd hts (by simp)
    have htSeq : totS1 = totS2 := by
      rw [htotS1] at htotS2
      injection htotS2
    have : tot1 = tot2 := by
      rw [htSeq, hparse2] at hparse1
      injection hparse1 with he
      exact he.symm
    rw [hrtot1, hrtot2, this]
  · intro C st r hpay h
    obtain ⟨oid, aid, its, -, -, -, -, -, -, hpl⟩ := current_pass_ok_shape C st r h
    rcases hpl with ⟨-, hr⟩ | ⟨pay, -, -, -, -, hpay', -⟩
    · rw [hr]
      exact ⟨rfl, rfl, rfl⟩
    · rw [hpay] at hpay'
      exact absurd hpay' (by simp)
  · intro C st r h
    obtain ⟨oid, aid, its, -, -, -, -, hitems, hits, -⟩ := current_pass_ok_shape C st r h
    rw [hitems]
    rcases htbl : C.itemsTable with - | rows
    · rw [htbl] at hits
      injection hits with he
      exact ⟨[], he.symm⟩
    · rw [htbl] at hits
      exact foldRows_upserts currentRowItem rows st.items its hits

/-- The legacy-pass output state of `legC9`, and the state after the
current pass `curC9` runs on it. -/
def stLegC9 : RState := ⟨"a9@x", "N9", [], 5, 1 / 2, 11 / 2⟩

/-- C9 witness: the sequencing conjunct at the concrete both-marker
document, and the amounts-preserved conjunct at the concrete legacy output
state. -/
theorem dual_pass_merge_semantics_witness :
    extract_receipt_fields ⟨some legC9, some curC9⟩ =
      (match legacy_pass legC9 initState with
       | .error e => .error e
       | .ok st1 => current_pass curC9 st1) ∧
    (RState.subtotal ⟨"new9@x", "NEW9", [], 5, 1 / 2, 11 / 2⟩ = stLegC9.subtotal ∧
     RState.tax ⟨"new9@x", "NEW9", [], 5, 1 / 2, 11 / 2⟩ = stLegC9.tax ∧
     RState.total ⟨"new9@x", "NEW9", [], 5, 1 / 2, 11 / 2⟩ = stLegC9.total) :=
  ⟨dual_pass_merge_semantics.1 ⟨some legC9, some curC9⟩ legC9 curC9 rfl rfl,
   dual_pass_merge_semantics.2.2.1 curC9 stLegC9 ⟨"new9@x", "NEW9", [], 5, 1 / 2, 11 / 2⟩
     rfl (by with_unfolding_all decide)⟩

/-!  ### Claim C10  -/

/-- Upserting key `k` keeps the existing key order when `k` is already a
key, and appends `k` at the end when it is new — `OrderedDict` assignment
semantics. -/
theorem upsert_keys (k : String) (v : Item) :
    ∀ l : List (String × Item),
      (upsert l k v).map Prod.fst =
        (if k ∈ l.map Prod.fst then l.map Prod.fst else l.map Prod.fst ++ [k]) := by
  intro l
  induction l with
  | nil => simp [upsert]
  | cons x rest ih =>
    obtain ⟨k', v'⟩ := x
    by_cases he : k' = k
    · subst he
      simp [upsert]
    · have hne : ¬k = k' := fun h => he h.symm
      by_cases hm : k ∈ rest.map Prod.fst <;>
        simp [upsert, he, ih, hm, hne]

/-- Key sequence of a fold of upserts: the fold of the pure key-insertion
step over the inserted keys. -/
theorem foldl_upsert_keys :
    ∀ (ins : List (String × Item)) (acc : List (String × Item)),
      ((ins.foldl (fun a p => upsert a p.1 p.2) acc).map Prod.fst) =
        (ins.map Prod.fst).foldl (fun ks t => if t ∈ ks then ks else ks ++ [t])
          (acc.map Prod.fst) := by
  intro ins
  induction ins with
  | nil => intro acc; rfl
  | cons p rest ih =>
    intro acc
    simp only [List.foldl_cons, List.map_cons]
    rw [ih (upsert acc p.1 p.2), upsert_keys]

/-- First-occurrence order of a key sequence (duplicates dropped, each key
at the position of its first occurrence). -/
def firstOccurrences (ts : List String) : List String :=
  ts.foldl (fun ks t => if t ∈ ks then ks else ks ++ [t]) []

/-- Upserting stores the new value under the key. -/
theorem lookupItem_upsert (k : String) (v : Item) :
    ∀ l : List (String × Item), lookupItem (upsert l k v) k = some v := by
  intro l
  induction l with
  | nil => simp [upsert, lookupItem]
  | cons x rest ih =>
    obtain ⟨k', v'⟩ := x
    by_cases he : k' = k
    · subst he
      simp [upsert, lookupItem]
    · simp [upsert, lookupItem, he, ih]

/-- A successful allocation walks the items in order, keeping the titles. -/
theorem allocItems_map_fst (pct : ℚ) :
    ∀ (l : List (String × Item)) (out : List (String × Item × ℚ)),
      allocItems pct l = .ok out → out.map (fun x => x.1) = l.map Prod.fst := by
  intro l
  induction l with
  | nil =>
    intro out h
    injection h with h'
    rw [← h']
    rfl
  | cons x rest ih =>
    intro out h
    obtain ⟨t, it⟩ := x
    unfold allocItems at h
    split at h
    · exact Except.noConfusion h
    · rename_i p hp
      split at h
      · exact Except.noConfusion h
      · rename_i l' hl'
        injection h with h'
        rw [← h']
        simp [ih l' hl']

/-- C10: a later item with a duplicate title replaces the earlier value
while keeping the earlier position (`upsert` semantics of the
`OrderedDict`): the key sequence of the built dict follows first-occurrence
order of the inserted titles, and the emitted transactions follow the dict
order (so both the transaction order and the last item — the residual
receiver — follow first-occurrence order of titles, not the document order
of the final rows). -/
theorem duplicate_title_upsert_order :
    (∀ ins : List (String × Item),
       ((ins.foldl (fun a p => upsert a p.1 p.2) []).map Prod.fst) =
         firstOccurrences (ins.map Prod.fst)) ∧
    (∀ (l : List (String × Item)) (k : String) (v : Item),
       (upsert l k v).map Prod.fst =
         (if k ∈ l.map Prod.fst then l.map Prod.fst else l.map Prod.fst ++ [k])) ∧
    (∀ (l : List (String × Item)) (k : String) (v : Item),
       lookupItem (upsert l k v) k = some v) ∧
    (∀ (accountId : String) (r : Receipt) (txns : List Txn),
       generate_ofx_receipt accountId r = .ok (some txns) →
       txns.map Txn.name = r.items.map Prod.fst) := by
  refine ⟨?_, fun l k v => upsert_keys k v l, fun l k v => lookupItem_upsert k v l, ?_⟩
  · intro ins
    rw [foldl_upsert_keys ins []]
    rfl
  · intro accountId r txns h
    obtain ⟨-, -, titems, halloc, -, htxns⟩ := generate_ofx_receipt_some_inv accountId r txns h
    rw [htxns, mkTxns_names, adjustLast_map_fst, allocItems_map_fst _ _ _ halloc]

/-- Receipt for the C10 witness. -/
def rcptC10 : Receipt :=
  ⟨"OX", "a", [("A", ⟨"A", "", "", some 5⟩), ("B", ⟨"B", "", "", some 3⟩)], 8, 0, 8, 0, "r"⟩

/-- C10 witness: the dict-order conjuncts at a concrete duplicate-title
insertion sequence, and the transaction-order conjunct at `rcptC10`. -/
theorem duplicate_title_upsert_order_witness :
    (([("Sub", ⟨"Sub", "1 Month", "", some 5⟩), ("B", ⟨"B", "", "", some 3⟩),
       ("Sub", ⟨"Sub", "3 Months", "", some 7⟩)].foldl
        (fun a p => upsert a p.1 p.2) ([] : List (String × Item))).map Prod.fst =
      firstOccurrences ["Sub", "B", "Sub"]) ∧
    lookupItem (upsert [("Sub", ⟨"Sub", "1 Month", "", some 5⟩)] "Sub"
        ⟨"Sub", "3 Months", "", some 7⟩) "Sub" =
      some ⟨"Sub", "3 Months", "", some 7⟩ ∧
    List.map Txn.name [⟨"DEBIT", 0, -5, "OX-1", "A", ""⟩, ⟨"DEBIT", 0, -3, "OX-2", "B", ""⟩] =
      rcptC10.items.map Prod.fst :=
  ⟨duplicate_title_upsert_order.1
     [("Sub", ⟨"Sub", "1 Month", "", some 5⟩), ("B", ⟨"B", "", "", some 3⟩),
      ("Sub", ⟨"Sub", "3 Months", "", some 7⟩)],
   duplicate_title_upsert_order.2.2.1 [("Sub", ⟨"Sub", "1 Month", "", some 5⟩)] "Sub"
     ⟨"Sub", "3 Months", "", some 7⟩,
   duplicate_title_upsert_order.2.2.2 "a" rcptC10
     [⟨"DEBIT", 0, -5, "OX-1", "A", ""⟩, ⟨"DEBIT", 0, -3, "OX-2", "B", ""⟩]
     (by with_unfolding_all decide)⟩
